import Mathlib

/-!
Shallow embedding of `geometry_features.py` from the
Ln-TM-Magnetic-Exchange-Predictor repository.

Atoms are parsed from whitespace-split lines `Z x y z`.  Coordinates are
modelled as exact rationals (idealizing Python floats); derived geometric
quantities (square roots, arc cosines, arc tangents) live in `ℝ`.
Each distinct Python `raise` site (and each distinct built-in exception
the code can raise) is modelled by one constructor of `Err`.
-/

namespace LnTM

/-- A 3-D point with rational coordinates. -/
abbrev Pt := ℚ × ℚ × ℚ

/-- A 3-D vector over `ℝ` (numpy arrays after real-valued operations). -/
abbrev RV := ℝ × ℝ × ℝ

def subQ (a b : Pt) : Pt := (a.1 - b.1, a.2.1 - b.2.1, a.2.2 - b.2.2)

def dotQ (a b : Pt) : ℚ := a.1 * b.1 + a.2.1 * b.2.1 + a.2.2 * b.2.2

noncomputable def toRV (p : Pt) : RV := ((p.1 : ℝ), (p.2.1 : ℝ), (p.2.2 : ℝ))

noncomputable def subR (a b : RV) : RV := (a.1 - b.1, a.2.1 - b.2.1, a.2.2 - b.2.2)

noncomputable def dotR (a b : RV) : ℝ := a.1 * b.1 + a.2.1 * b.2.1 + a.2.2 * b.2.2

noncomputable def crossR (a b : RV) : RV :=
  (a.2.1 * b.2.2 - a.2.2 * b.2.1,
   a.2.2 * b.1 - a.1 * b.2.2,
   a.1 * b.2.1 - a.2.1 * b.1)

noncomputable def divR (a : RV) (t : ℝ) : RV := (a.1 / t, a.2.1 / t, a.2.2 / t)

noncomputable def smulR (t : ℝ) (a : RV) : RV := (t * a.1, t * a.2.1, t * a.2.2)

/-- `np.linalg.norm` of a real 3-vector. -/
noncomputable def normR (a : RV) : ℝ := Real.sqrt (dotR a a)

/-- `np.linalg.norm` of a rational 3-vector. -/
noncomputable def normQ (v : Pt) : ℝ := Real.sqrt ((dotQ v v : ℚ) : ℝ)

/-- `np.degrees`: radians to degrees. -/
noncomputable def degrees (x : ℝ) : ℝ := x * (180 / Real.pi)

/-- `np.arctan2 y x`: the argument of the complex number `x + y*i`. -/
noncomputable def atan2 (y x : ℝ) : ℝ := Complex.arg (⟨x, y⟩ : ℂ)

/-- Source `dist(a, b)`: `math.sqrt(sum((a[i] - b[i]) ** 2 for i in range(3)))`. -/
noncomputable def dist (a b : Pt) : ℝ :=
  Real.sqrt (((a.1 - b.1 : ℚ) : ℝ) ^ 2 + ((a.2.1 - b.2.1 : ℚ) : ℝ) ^ 2 +
    ((a.2.2 - b.2.2 : ℚ) : ℝ) ^ 2)

/-- Source `angle(a, b, c)`:
`np.degrees(np.arccos(np.dot(ba, bc) / (np.linalg.norm(ba) * np.linalg.norm(bc))))`
with `ba = a - b`, `bc = c - b`. -/
noncomputable def angle (a b c : Pt) : ℝ :=
  degrees (Real.arccos (((dotQ (subQ a b) (subQ c b) : ℚ) : ℝ) /
    (normQ (subQ a b) * normQ (subQ c b))))

/-- Source `midpoint(a, b) = (a + b) / 2` componentwise. -/
def midpoint (a b : Pt) : Pt :=
  ((a.1 + b.1) / 2, (a.2.1 + b.2.1) / 2, (a.2.2 + b.2.2) / 2)

/-- Source `dihedral(p0, p1, p2, p3)`: normalize the central bond, project the
outer bond vectors orthogonally to it and take the signed angle via `arctan2`. -/
noncomputable def dihedral (p0 p1 p2 p3 : Pt) : ℝ :=
  let b0 := subR (toRV p0) (toRV p1)
  let b1 := subR (toRV p2) (toRV p1)
  let b2 := subR (toRV p3) (toRV p2)
  let b1n := divR b1 (normR b1)
  let v := subR b0 (smulR (dotR b0 b1n) b1n)
  let w := subR b2 (smulR (dotR b2 b1n) b1n)
  degrees (atan2 (dotR (crossR b1n v) w) (dotR v w))

/-- Source `lanthanides = set(range(57, 72))`. -/
def lanthanides : Finset ℤ := Finset.Icc 57 71

/-- Source `transition_metals = set(range(21,31)) | set(range(39,49)) | set(range(72,81))`. -/
def transition_metals : Finset ℤ :=
  Finset.Icc 21 30 ∪ Finset.Icc 39 48 ∪ Finset.Icc 72 80

/-- Source `spin_map`: high-spin values per transition-metal atomic number. -/
def spin_map : List (ℤ × ℚ) :=
  [(23, 3/2), (24, 2), (25, 5/2), (26, 2), (27, 3/2), (28, 1), (29, 1/2), (30, 0)]

/-- One constructor per distinct exception the Python code can raise. -/
inductive Err where
  | unpackTooFew (got : Nat)
  | unpackTooMany
  | intParse (tok : String)
  | floatParse (tok : String)
  | noLn
  | noTm
  | multiLn (idxs : List Nat)
  | multiTm (idxs : List Nat)
  | stopIteration
  | indexError
  | znDiamagnetic
  | fewOxygens
  | noTorsionAnchor
  | ambiguousTruth
  | keyError (z : ℤ)
deriving DecidableEq

/-- True for the errors the code raises as `ValueError` (the kinds the
presentation shell catches and renders); `StopIteration`, `IndexError` and
`KeyError` are built-in exceptions of other classes.  `ambiguousTruth`
(numpy's "truth value of an array is ambiguous") is itself a `ValueError`,
though not one of the documented taxonomy kinds. -/
def Err.isValueError : Err → Bool
  | .stopIteration => false
  | .indexError => false
  | .keyError _ => false
  | _ => true

/-- True for the errors arising while parsing an input line. -/
def Err.isParse : Err → Bool
  | .unpackTooFew _ => true
  | .unpackTooMany => true
  | .intParse _ => true
  | .floatParse _ => true
  | _ => false

/-- An atom record `(i + 1, int(Z), np.array([x, y, z]))`. -/
structure Atom where
  index : ℕ
  Z : ℤ
  pos : Pt
deriving DecidableEq

def dummyAtom : Atom := ⟨0, 0, (0, 0, 0)⟩

def digitsVal (cs : List Char) : ℕ :=
  cs.foldl (fun a c => 10 * a + (c.toNat - 48)) 0

def isDigits (cs : List Char) : Bool :=
  !cs.isEmpty && cs.all Char.isDigit

/-- Python `int(s)` on a plain (optionally signed) decimal integer literal. -/
def pyInt? (s : String) : Option ℤ :=
  match s.data with
  | '-' :: cs => if isDigits cs then some (-(digitsVal cs : ℤ)) else none
  | '+' :: cs => if isDigits cs then some ((digitsVal cs : ℤ)) else none
  | cs => if isDigits cs then some ((digitsVal cs : ℤ)) else none

def decMag? (cs : List Char) : Option ℚ :=
  match cs.splitOn '.' with
  | [ds] => if isDigits ds then some ((digitsVal ds : ℕ) : ℚ) else none
  | [ds, fs] =>
      if ds.isEmpty && fs.isEmpty then none
      else if ds.all Char.isDigit && fs.all Char.isDigit then
        some (((digitsVal ds : ℕ) : ℚ) + ((digitsVal fs : ℕ) : ℚ) / (10 : ℚ) ^ fs.length)
      else none
  | _ => none

/-- Python `float(s)` on a plain (optionally signed) decimal literal. -/
def pyFloat? (s : String) : Option ℚ :=
  match s.data with
  | '-' :: cs => (decMag? cs).map (fun q => -q)
  | '+' :: cs => decMag? cs
  | cs => decMag? cs

/-- One line `Z, x, y, z = line.split()` followed by `int(Z)`, `float(x)`,
`float(y)`, `float(z)` (evaluated in that order, first failure raised). -/
def parseLine (toks : List String) : Except Err (ℤ × Pt) :=
  match toks with
  | [zs, xs, ys, ws] =>
    match pyInt? zs with
    | none => .error (.intParse zs)
    | some z =>
      match pyFloat? xs with
      | none => .error (.floatParse xs)
      | some x =>
        match pyFloat? ys with
        | none => .error (.floatParse ys)
        | some y =>
          match pyFloat? ws with
          | none => .error (.floatParse ws)
          | some w => .ok (z, (x, y, w))
  | toks => if toks.length < 4 then .error (.unpackTooFew toks.length) else .error .unpackTooMany

/-- The `for i, line in enumerate(f)` loop body, accumulating atoms. -/
def parseAtomsAux : ℕ → List (List String) → Except Err (List Atom)
  | _, [] => .ok []
  | i, l :: ls =>
    match parseLine l with
    | .error e => .error e
    | .ok (z, p) =>
      match parseAtomsAux (i + 1) ls with
      | .error e => .error e
      | .ok rest => .ok ({ index := i + 1, Z := z, pos := p } :: rest)

/-- Parsing the whole file into the `atoms` list. -/
def parseAtoms (lines : List (List String)) : Except Err (List Atom) :=
  parseAtomsAux 0 lines

/-- Python truthiness of the optional index arguments (`if ln_index`):
`None` and `0` are falsy, every other integer is truthy. -/
def truthy : Option ℤ → Bool
  | none => false
  | some n => n != 0

/-- Source line `Ln = next(a for a in Ln_atoms if a[0] == ln_index) if ln_index else Ln_atoms[0]`.
A truthy index with no matching candidate makes `next` raise `StopIteration`;
`Ln_atoms[0]` on an empty list would raise `IndexError` (unreachable after the
emptiness checks). -/
def pickCenter (cands : List Atom) (idx : Option ℤ) : Except Err Atom :=
  if truthy idx then
    match cands.find? (fun a => (a.index : ℤ) == idx.getD 0) with
    | some a => .ok a
    | none => .error .stopIteration
  else
    match cands with
    | a :: _ => .ok a
    | [] => .error .indexError

/-- Source `Ln_atoms = [a for a in atoms if a[1] in lanthanides]`. -/
def Ln_atoms (atoms : List Atom) : List Atom :=
  atoms.filter (fun a => decide (a.Z ∈ lanthanides))

/-- Source `Tm_atoms = [a for a in atoms if a[1] in transition_metals]`. -/
def Tm_atoms (atoms : List Atom) : List Atom :=
  atoms.filter (fun a => decide (a.Z ∈ transition_metals))

/-- Source `O_atoms = [a for a in atoms if a[1] == 8]`. -/
def O_atoms (atoms : List Atom) : List Atom :=
  atoms.filter (fun a => a.Z == 8)

/-- Lines 55-78 of the source: classify, check emptiness and ambiguity in the
source's order (no Ln, no TM, multiple Ln, multiple TM), then select. -/
def resolveCenters (atoms : List Atom) (li ti : Option ℤ) : Except Err (Atom × Atom) :=
  if (Ln_atoms atoms).length = 0 then .error .noLn
  else if (Tm_atoms atoms).length = 0 then .error .noTm
  else if 1 < (Ln_atoms atoms).length ∧ li = none then
    .error (.multiLn ((Ln_atoms atoms).map (·.index)))
  else if 1 < (Tm_atoms atoms).length ∧ ti = none then
    .error (.multiTm ((Tm_atoms atoms).map (·.index)))
  else
    match pickCenter (Ln_atoms atoms) li with
    | .error e => .error e
    | .ok Ln =>
      match pickCenter (Tm_atoms atoms) ti with
      | .error e => .error e
      | .ok tm => .ok (Ln, tm)

/-- The ordering realized by Python `sorted` on the pairs
`(dist(Ln,O) + dist(Tm,O), o)`: compare the sums, and on equal sums compare the
atom tuples, whose first component (the 1-based input index, distinct across
atoms) settles the tie. -/
def pairLe (p q : ℝ × Atom) : Prop :=
  p.1 < q.1 ∨ (p.1 = q.1 ∧ p.2.index ≤ q.2.index)

noncomputable instance : DecidableRel pairLe := fun p q => by
  unfold pairLe; exact inferInstance

instance : IsTrans (ℝ × Atom) pairLe where
  trans := by
    rintro a b c (h₁ | ⟨h₁, i₁⟩) (h₂ | ⟨h₂, i₂⟩)
    · exact Or.inl (lt_trans h₁ h₂)
    · exact Or.inl (h₂ ▸ h₁)
    · exact Or.inl (h₁ ▸ h₂)
    · exact Or.inr ⟨h₁.trans h₂, i₁.trans i₂⟩

instance : IsTotal (ℝ × Atom) pairLe where
  total := by
    intro a b
    rcases lt_trichotomy a.1 b.1 with h | h | h
    · exact Or.inl (Or.inl h)
    · rcases Nat.le_total a.2.index b.2.index with hi | hi
      · exact Or.inl (Or.inr ⟨h, hi⟩)
      · exact Or.inr (Or.inr ⟨h.symm, hi⟩)
    · exact Or.inr (Or.inl h)

/-- The bridging key of one oxygen: `dist(Ln[2], o[2]) + dist(Tm[2], o[2])`. -/
noncomputable def brKey (Ln tm o : Atom) : ℝ :=
  dist Ln.pos o.pos + dist tm.pos o.pos

/-- The keyed list `[(dist(Ln[2], o[2]) + dist(Tm[2], o[2]), o) for o in O_atoms]`. -/
noncomputable def bridgeKeyed (Ln tm : Atom) (Os : List Atom) : List (ℝ × Atom) :=
  Os.map (fun o => (brKey Ln tm o, o))

/-- The sorted keyed oxygen list (`sorted(...)` in the source). -/
noncomputable def oxySorted (Ln tm : Atom) (Os : List Atom) : List (ℝ × Atom) :=
  List.insertionSort pairLe (bridgeKeyed Ln tm Os)

/-- Atoms eligible as torsion anchors: neither lanthanide, nor transition
metal, nor oxygen. -/
def heavyPred (a : Atom) : Bool :=
  decide (a.Z ∉ lanthanides) && decide (a.Z ∉ transition_metals) && a.Z != 8

/-- The `candidates` list of `nearest_heavy`, pairing each eligible atom's
distance to the oxygen with its coordinates. -/
noncomputable def heavyCands (atoms : List Atom) (o : Pt) : List (ℝ × Pt) :=
  (atoms.filter heavyPred).map (fun a => (dist o a.pos, a.pos))

/-- Python `min` scanning a list of `(distance, ndarray)` tuples with a
running minimum.  Each step evaluates `item < current`, and tuple comparison
first tests `d_item == d_cur`: on a distance tie it falls through to
comparing the coordinate arrays, and `bool()` of a length-3 elementwise
comparison raises numpy's ambiguous-truth `ValueError`; otherwise the float
comparison `d_item < d_cur` decides whether the minimum advances. -/
noncomputable def pyMin : List (ℝ × Pt) → (ℝ × Pt) → Except Err (ℝ × Pt)
  | [], best => .ok best
  | p :: ps, best =>
    if p.1 = best.1 then .error .ambiguousTruth
    else if p.1 < best.1 then pyMin ps p
    else pyMin ps best

/-- Source `nearest_heavy(Ocoord)`: raise when no candidate exists, otherwise
`min(candidates)[1]` — the coordinates of the distance-minimal candidate,
where the scan raises numpy's ambiguous-truth `ValueError` whenever a
candidate's distance ties the running minimum (see `pyMin`). -/
noncomputable def nearestHeavy (atoms : List Atom) (o : Pt) : Except Err Pt :=
  match heavyCands atoms o with
  | [] => .error .noTorsionAnchor
  | c :: cs =>
    match pyMin cs c with
    | .error e => .error e
    | .ok best => .ok best.2

/-- Python `sorted` on a two-element list `[u, v]`. -/
noncomputable def sort2 (u v : ℝ) : ℝ × ℝ := if v < u then (v, u) else (u, v)

/-- The single result row of the returned DataFrame (lines 113-134 of the
source): field names with their values, in the source's insertion order. -/
noncomputable def mkRecord (s : ℚ) (tz : ℤ) (LnP TmP O1 O2 c1 c2 : Pt) :
    List (String × ℝ) :=
  let LnTmD := dist LnP TmP
  let LnO := sort2 (dist LnP O1) (dist LnP O2)
  let TmO := sort2 (dist TmP O1) (dist TmP O2)
  let LnOTm := sort2 (angle LnP O1 TmP) (angle LnP O2 TmP)
  let X := midpoint O1 O2
  let LnXTm := angle LnP X TmP
  let torsion := |dihedral c1 O1 O2 c2|
  [("Spin", (s : ℝ)), ("TmZ", (tz : ℝ)), ("Ln-Tm", LnTmD),
   ("(Ln-O-Tm)1", LnOTm.1), ("(Ln-O-Tm)2", LnOTm.2), ("(Ln-X-Tm)", LnXTm),
   ("tio", torsion), ("Ln-O1", LnO.1), ("Ln-O2", LnO.2),
   ("Tm-O1", TmO.1), ("Tm-O2", TmO.2)]

/-- Source `extract_features(xyz_file, ln_index=None, tm_index=None)`.
The input is the file's lines, each already whitespace-split into tokens; the
result models `pd.DataFrame([{...}])` as a one-row list of named fields. -/
noncomputable def extract_features (input : List (List String)) (li ti : Option ℤ) :
    Except Err (List (List (String × ℝ))) :=
  match parseAtoms input with
  | .error e => .error e
  | .ok atoms =>
    match resolveCenters atoms li ti with
    | .error e => .error e
    | .ok (Ln, tm) =>
      if tm.Z = 30 then .error .znDiamagnetic
      else
        if (O_atoms atoms).length < 2 then .error .fewOxygens
        else
          let oxy := (oxySorted Ln tm (O_atoms atoms)).take 2
          let O1 := (oxy.getD 0 ((0 : ℝ), dummyAtom)).2.pos
          let O2 := (oxy.getD 1 ((0 : ℝ), dummyAtom)).2.pos
          match nearestHeavy atoms O1 with
          | .error e => .error e
          | .ok c1 =>
            match nearestHeavy atoms O2 with
            | .error e => .error e
            | .ok c2 =>
              match spin_map.lookup tm.Z with
              | none => .error (.keyError tm.Z)
              | some s => .ok [mkRecord s tm.Z Ln.pos tm.pos O1 O2 c1 c2]

/-- The position of the i-th selected bridging oxygen, exactly the `O1`/`O2`
subterms of `extract_features` (`i = 0` and `i = 1`). -/
noncomputable def bridgePos (Ln tm : Atom) (atoms : List Atom) (i : ℕ) : Pt :=
  (((oxySorted Ln tm (O_atoms atoms)).take 2).getD i ((0 : ℝ), dummyAtom)).2.pos

/-- Whether a call returned a descriptor DataFrame rather than raising. -/
def resultOk {α : Type} : Except Err α → Bool
  | .ok _ => true
  | .error _ => false

/-- The end-to-end example structure of the spec: Gd at the origin, Fe at
(3,0,0), two bridging oxygens, two carbons. -/
def demoOk : List (List String) :=
  [["64","0","0","0"], ["26","3","0","0"], ["8","1.5","0.3","0"],
   ["8","1.5","-0.3","0"], ["6","2.5","0.6","0"], ["6","2.5","-0.6","0"]]

/-- Two lanthanides (Gd index 1, Tb index 2), one Fe, two O, one C. -/
def demoTwoLn : List (List String) :=
  [["64","0","0","0"], ["65","1","1","0"], ["26","3","0","0"],
   ["8","1.5","0.3","0"], ["8","1.5","-0.3","0"], ["6","2.5","0.6","0"]]

/-- One Gd, two Fe (indices 2 and 3), two O, one C. -/
def demoTwoTm : List (List String) :=
  [["64","0","0","0"], ["26","3","0","0"], ["26","3","1","0"],
   ["8","1.5","0.3","0"], ["8","1.5","-0.3","0"], ["6","2.5","0.6","0"]]

/-- Gd and Zn only; zero oxygen atoms. -/
def demoZn : List (List String) := [["64","0","0","0"], ["30","3","0","0"]]

/-- Gd, Ru (Z=44, a transition metal with no spin_map entry), two O, one C. -/
def demoRu : List (List String) :=
  [["64","0","0","0"], ["44","3","0","0"], ["8","1.5","0.3","0"],
   ["8","1.5","-0.3","0"], ["6","2.5","0.6","0"]]

/-- A structure whose first oxygen coincides with the Gd position, so the
angle computation `angle(Ln, O1, Tm)` has a zero-length leg. -/
def degenInput : List (List String) :=
  [["64","0","0","0"], ["26","3","0","0"], ["8","0","0","0"],
   ["8","1.5","0","0"], ["6","2","1","0"]]

/-- The parsed atom list of `degenInput`. -/
def degenAtoms : List Atom := (parseAtoms degenInput).toOption.getD []

/-- The parsed atoms of `demoZn` and its resolved centers. -/
def znAtoms : List Atom := (parseAtoms demoZn).toOption.getD []

def znLn : Atom := (Ln_atoms znAtoms).headD dummyAtom

def znTm : Atom := (Tm_atoms znAtoms).headD dummyAtom

/-- C7: whenever center selection resolves a transition metal with atomic
number 30 (Zn), extraction fails with the diamagnetic-Zn error.  No hypothesis
about oxygen count is needed, so the Zn check takes precedence over the
insufficient-bridges check. -/
theorem zn_check_precedes_oxygen_check (input : List (List String)) (li ti : Option ℤ)
    (atoms : List Atom) (Ln tm : Atom)
    (hp : parseAtoms input = .ok atoms)
    (hc : resolveCenters atoms li ti = .ok (Ln, tm))
    (hz : tm.Z = 30) :
    extract_features input li ti = .error .znDiamagnetic := by
  unfold extract_features
  rw [hp]
  dsimp only
  rw [hc]
  dsimp only
  rw [if_pos hz]

/-- Witness for C7: a structure whose sole TM is Zn and which contains zero
oxygen atoms fails with the diamagnetic-Zn error, not the oxygen-count error. -/
theorem zn_check_precedes_oxygen_check_witness :
    extract_features demoZn none none = .error .znDiamagnetic :=
  zn_check_precedes_oxygen_check demoZn none none znAtoms znLn znTm rfl rfl rfl

/-- C4: supplying index 0 is falsy in Python, so with two lanthanides the code
silently selects the first candidate and returns a record — it does not behave
like an unsupplied index, which raises the ambiguity error.  Symmetrically for
`tm_index`.  The first and third conjuncts also show the index-0 call equals
the call explicitly selecting the first candidate. -/
theorem zero_index_silently_selects_first :
    extract_features demoTwoLn (some 0) none = extract_features demoTwoLn (some 1) none ∧
    resultOk (extract_features demoTwoLn (some 0) none) = true ∧
    extract_features demoTwoLn none none = .error (.multiLn [1, 2]) ∧
    extract_features demoTwoTm none (some 0) = extract_features demoTwoTm none (some 2) ∧
    resultOk (extract_features demoTwoTm none (some 0)) = true ∧
    extract_features demoTwoTm none none = .error (.multiTm [2, 3]) :=
  ⟨rfl, rfl, rfl, rfl, rfl, rfl⟩

/-- C6: the geometry utilities have no degenerate-geometry guard.  On a
structure whose lanthanide position coincides with an oxygen position (a
zero-length leg in `angle`), extraction still returns a descriptor record
instead of signalling an error (in Python the record holds NaN values). -/
theorem no_degenerate_geometry_guard :
    (parseAtoms degenInput = .ok degenAtoms ∧
      ∃ a ∈ degenAtoms, ∃ b ∈ degenAtoms, a.Z ∈ lanthanides ∧ b.Z = 8 ∧ a.pos = b.pos) ∧
    resultOk (extract_features degenInput none none) = true := by
  refine ⟨⟨rfl, ?_⟩, rfl⟩
  decide

/-- Counterexample for C3: a supplied index matching no candidate makes the
selection raise `StopIteration` (from `next` on an exhausted generator), which
is not a `ValueError` and hence not one of the documented, shell-catchable
error kinds. -/
theorem invalid_index_not_valueerror_cex :
    extract_features demoOk (some 5) none = .error .stopIteration ∧
    Err.stopIteration.isValueError = false :=
  ⟨rfl, rfl⟩

/-- Counterexample for C9: two inputs whose malformed line (token count 3)
sits at different line numbers produce the identical error value, so the
diagnostic cannot identify the offending line. -/
theorem parse_error_line_identity_cex :
    extract_features [["8","0","0"], ["64","0","0","0"]] none none
        = .error (.unpackTooFew 3) ∧
    extract_features [["64","0","0","0"], ["8","0","0"]] none none
        = .error (.unpackTooFew 3) :=
  ⟨rfl, rfl⟩

/-- C10: with both legs nonzero, `angle` is symmetric in its outer arguments
and its value lies in [0, 180] degrees. -/
theorem angle_symmetric_in_range (a b c : Pt) (_hab : a ≠ b) (_hcb : c ≠ b) :
    angle a b c = angle c b a ∧ 0 ≤ angle a b c ∧ angle a b c ≤ 180 := by
  refine ⟨?_, ?_, ?_⟩
  · unfold angle
    have hd : dotQ (subQ a b) (subQ c b) = dotQ (subQ c b) (subQ a b) := by
      unfold dotQ; ring
    rw [hd, mul_comm]
  · unfold angle degrees
    exact mul_nonneg (Real.arccos_nonneg _) (by positivity)
  · unfold angle degrees
    have h1 := Real.arccos_le_pi (((dotQ (subQ a b) (subQ c b) : ℚ) : ℝ) /
      (normQ (subQ a b) * normQ (subQ c b)))
    have h2 : (0:ℝ) ≤ 180 / Real.pi := by positivity
    calc Real.arccos (((dotQ (subQ a b) (subQ c b) : ℚ) : ℝ) /
          (normQ (subQ a b) * normQ (subQ c b))) * (180 / Real.pi)
        ≤ Real.pi * (180 / Real.pi) := mul_le_mul_of_nonneg_right h1 h2
      _ = 180 := by field_simp

/-- Witness for C10 at the right angle spanned by the two unit axes. -/
theorem angle_symmetric_in_range_witness :
    angle (1,0,0) (0,0,0) (0,1,0) = angle (0,1,0) (0,0,0) (1,0,0) ∧
    0 ≤ angle (1,0,0) (0,0,0) (0,1,0) ∧ angle (1,0,0) (0,0,0) (0,1,0) ≤ 180 :=
  angle_symmetric_in_range (1,0,0) (0,0,0) (0,1,0) (by decide) (by decide)

lemma truthy_ne_none {idx : Option ℤ} (h : truthy idx = true) : idx ≠ none := by
  cases idx with
  | none => simp [truthy] at h
  | some n => simp

lemma pickCenter_stopIteration (cands : List Atom) (idx : Option ℤ)
    (ht : truthy idx = true)
    (hf : cands.find? (fun a => (a.index : ℤ) == idx.getD 0) = none) :
    pickCenter cands idx = .error .stopIteration := by
  unfold pickCenter
  rw [if_pos ht, hf]

lemma extract_features_rc_error (input : List (List String)) (li ti : Option ℤ)
    (atoms : List Atom) (e : Err)
    (hp : parseAtoms input = .ok atoms)
    (hc : resolveCenters atoms li ti = .error e) :
    extract_features input li ti = .error e := by
  unfold extract_features
  rw [hp]
  dsimp only
  rw [hc]

lemma spin_lookup_none {z : ℤ} (h : ¬(23 ≤ z ∧ z ≤ 30)) : spin_map.lookup z = none := by
  have h23 : (z == 23) = false := beq_eq_false_iff_ne.mpr (by omega)
  have h24 : (z == 24) = false := beq_eq_false_iff_ne.mpr (by omega)
  have h25 : (z == 25) = false := beq_eq_false_iff_ne.mpr (by omega)
  have h26 : (z == 26) = false := beq_eq_false_iff_ne.mpr (by omega)
  have h27 : (z == 27) = false := beq_eq_false_iff_ne.mpr (by omega)
  have h28 : (z == 28) = false := beq_eq_false_iff_ne.mpr (by omega)
  have h29 : (z == 29) = false := beq_eq_false_iff_ne.mpr (by omega)
  have h30 : (z == 30) = false := beq_eq_false_iff_ne.mpr (by omega)
  simp [spin_map, List.lookup, h23, h24, h25, h26, h27, h28, h29, h30]

/-- C5 (amended): when the resolved TM is classified as a transition metal
but its atomic number has no `spin_map` entry (i.e. lies outside 23..30), and
every stage up to the spin lookup succeeds — in particular both
`nearest_heavy` scans return a candidate instead of hitting a distance tie —
extraction raises the `KeyError` from `spin_map[Tm[1]]`, which is not one of
the `ValueError`-class documented errors, after the whole geometry stage has
been traversed. -/
theorem unmapped_tm_keyerror (input : List (List String)) (li ti : Option ℤ)
    (atoms : List Atom) (Ln tm : Atom) (c1 c2 : Pt)
    (hp : parseAtoms input = .ok atoms)
    (hc : resolveCenters atoms li ti = .ok (Ln, tm))
    (_htm : tm.Z ∈ transition_metals)
    (hdom : ¬(23 ≤ tm.Z ∧ tm.Z ≤ 30))
    (hO : ¬((O_atoms atoms).length < 2))
    (h1 : nearestHeavy atoms (bridgePos Ln tm atoms 0) = .ok c1)
    (h2 : nearestHeavy atoms (bridgePos Ln tm atoms 1) = .ok c2) :
    extract_features input li ti = .error (.keyError tm.Z) ∧
      (Err.keyError tm.Z).isValueError = false := by
  refine ⟨?_, rfl⟩
  have hz : ¬(tm.Z = 30) := by omega
  unfold bridgePos at h1 h2
  unfold extract_features
  rw [hp]
  dsimp only
  rw [hc]
  dsimp only
  rw [if_neg hz, if_neg hO]
  rw [h1]
  dsimp only
  rw [h2]
  dsimp only
  rw [spin_lookup_none hdom]

/-- The parsed atoms of `demoRu` and its resolved centers. -/
def ruAtoms : List Atom := (parseAtoms demoRu).toOption.getD []

def ruLn : Atom := (Ln_atoms ruAtoms).headD dummyAtom

def ruTm : Atom := (Tm_atoms ruAtoms).headD dummyAtom

/-- The position of the sole torsion-candidate carbon of `demoRu`. -/
def ruC : Pt := ((ruAtoms.filter heavyPred).headD dummyAtom).pos

/-- Witness for C5 on a Gd/Ru structure with a single carbon (so neither
`nearest_heavy` scan can hit a tie): Ru (Z=44) is in the TM set but has no
spin entry, and extraction ends in the `KeyError`. -/
theorem unmapped_tm_keyerror_witness :
    extract_features demoRu none none = .error (.keyError ruTm.Z) ∧
      (Err.keyError ruTm.Z).isValueError = false :=
  unmapped_tm_keyerror demoRu none none ruAtoms ruLn ruTm ruC ruC rfl rfl
    (by decide) (by decide) (by decide) rfl rfl

/-- A Gd/Ru structure whose two carbons share one position, so both torsion
candidates lie at the same distance from the first bridging oxygen and the
`min()` scan hits a tie. -/
def demoTie : List (List String) :=
  [["64","0","0","0"], ["44","3","0","0"], ["8","1.5","0.3","0"],
   ["8","1.5","-0.3","0"], ["6","2.5","0.6","0"], ["6","2.5","0.6","0"]]

/-- The parsed atoms of `demoTie` and its resolved centers. -/
def tieAtoms : List Atom := (parseAtoms demoTie).toOption.getD []

def tieLn : Atom := (Ln_atoms tieAtoms).headD dummyAtom

def tieTm : Atom := (Tm_atoms tieAtoms).headD dummyAtom

/-- The shared position of the two coincident carbons of `demoTie`. -/
def tieC : Pt := ((tieAtoms.filter heavyPred).headD dummyAtom).pos

/-- Counterexample for C5 as originally stated: on a structure whose resolved
TM is Ru (Z=44, in the TM set, outside the spin domain) but whose torsion
candidates tie in distance, extraction fails inside `nearest_heavy` with
numpy's ambiguous-truth `ValueError` — a catchable `ValueError`, not the
claimed unhandled `KeyError` from the spin lookup. -/
theorem unmapped_tm_keyerror_tie_cex :
    extract_features demoTie none none = .error .ambiguousTruth ∧
    Err.ambiguousTruth ≠ .keyError 44 ∧
    Err.ambiguousTruth.isValueError = true := by
  refine ⟨?_, by decide, rfl⟩
  have hnh : ∀ o : Pt, nearestHeavy tieAtoms o = .error .ambiguousTruth := by
    intro o
    unfold nearestHeavy
    rw [show heavyCands tieAtoms o =
        [(dist o tieC, tieC), (dist o tieC, tieC)] from rfl]
    dsimp only
    unfold pyMin
    rw [if_pos rfl]
  unfold extract_features
  rw [show parseAtoms demoTie = Except.ok tieAtoms from rfl]
  dsimp only
  rw [show resolveCenters tieAtoms none none = Except.ok (tieLn, tieTm) from rfl]
  dsimp only
  rw [if_neg (show ¬(tieTm.Z = 30) by decide),
    if_neg (show ¬((O_atoms tieAtoms).length < 2) by decide)]
  rw [hnh]

/-- C3 (amended): a truthy supplied index that matches no candidate in the
respective list makes extraction fail with `StopIteration` (raised by `next`),
not with a documented `ValueError`-class error; first conjunct covers
`ln_index`, second covers `tm_index`. -/
theorem invalid_index_stopiteration :
    (∀ input li ti atoms, parseAtoms input = .ok atoms →
      (Ln_atoms atoms).length ≠ 0 → (Tm_atoms atoms).length ≠ 0 →
      ¬(1 < (Tm_atoms atoms).length ∧ ti = none) →
      truthy li = true →
      (Ln_atoms atoms).find? (fun a => (a.index : ℤ) == li.getD 0) = none →
      extract_features input li ti = .error .stopIteration) ∧
    (∀ input li ti atoms Ln, parseAtoms input = .ok atoms →
      (Ln_atoms atoms).length ≠ 0 → (Tm_atoms atoms).length ≠ 0 →
      ¬(1 < (Ln_atoms atoms).length ∧ li = none) →
      pickCenter (Ln_atoms atoms) li = .ok Ln →
      truthy ti = true →
      (Tm_atoms atoms).find? (fun a => (a.index : ℤ) == ti.getD 0) = none →
      extract_features input li ti = .error .stopIteration) := by
  constructor
  · intro input li ti atoms hp hL hT hTam hli hfind
    apply extract_features_rc_error input li ti atoms _ hp
    unfold resolveCenters
    rw [if_neg hL, if_neg hT, if_neg (fun h => truthy_ne_none hli h.2), if_neg hTam,
      pickCenter_stopIteration _ _ hli hfind]
  · intro input li ti atoms Ln hp hL hT hLam hpick hti hfind
    apply extract_features_rc_error input li ti atoms _ hp
    unfold resolveCenters
    rw [if_neg hL, if_neg hT, if_neg hLam, if_neg (fun h => truthy_ne_none hti h.2),
      hpick]
    dsimp only
    rw [pickCenter_stopIteration _ _ hti hfind]

/-- The parsed atoms of `demoOk` and its resolved lanthanide. -/
def okAtoms : List Atom := (parseAtoms demoOk).toOption.getD []

def okLn : Atom := (Ln_atoms okAtoms).headD dummyAtom

/-- Witness for amended C3: indices 5 and 7 match no candidate in `demoOk`. -/
theorem invalid_index_stopiteration_witness :
    extract_features demoOk (some 5) none = .error .stopIteration ∧
    extract_features demoOk none (some 7) = .error .stopIteration :=
  ⟨invalid_index_stopiteration.1 demoOk (some 5) none okAtoms rfl
      (by decide) (by decide) (by decide) rfl rfl,
    invalid_index_stopiteration.2 demoOk none (some 7) okAtoms okLn rfl
      (by decide) (by decide) (by decide) rfl rfl rfl⟩

/-- C8: with more than one candidate in a class and no disambiguating index,
extraction fails with the ambiguity error carrying the complete list of
candidate atom indices; first conjunct covers lanthanides, second covers
transition metals. -/
theorem ambiguous_center_reports_candidates :
    (∀ input li ti atoms, parseAtoms input = .ok atoms →
      1 < (Ln_atoms atoms).length → li = none →
      (Tm_atoms atoms).length ≠ 0 →
      extract_features input li ti = .error (.multiLn ((Ln_atoms atoms).map (·.index)))) ∧
    (∀ input li ti atoms, parseAtoms input = .ok atoms →
      (Ln_atoms atoms).length ≠ 0 →
      ¬(1 < (Ln_atoms atoms).length ∧ li = none) →
      1 < (Tm_atoms atoms).length → ti = none →
      extract_features input li ti = .error (.multiTm ((Tm_atoms atoms).map (·.index)))) := by
  constructor
  · intro input li ti atoms hp hm hli hT
    apply extract_features_rc_error input li ti atoms _ hp
    unfold resolveCenters
    rw [if_neg (by omega), if_neg hT, if_pos ⟨hm, hli⟩]
  · intro input li ti atoms hp hL hLam hm hti
    apply extract_features_rc_error input li ti atoms _ hp
    unfold resolveCenters
    rw [if_neg hL, if_neg (by omega), if_neg hLam, if_pos ⟨hm, hti⟩]

/-- The parsed atoms of the two ambiguous demo structures. -/
def twoLnAtoms : List Atom := (parseAtoms demoTwoLn).toOption.getD []

def twoTmAtoms : List Atom := (parseAtoms demoTwoTm).toOption.getD []

/-- Witness for C8: both Gd/Tb indices (1 and 2), respectively both Fe
indices (2 and 3), are reported. -/
theorem ambiguous_center_reports_candidates_witness :
    extract_features demoTwoLn none none = .error (.multiLn [1, 2]) ∧
    extract_features demoTwoTm none none = .error (.multiTm [2, 3]) :=
  ⟨(ambiguous_center_reports_candidates.1 demoTwoLn none none twoLnAtoms rfl
      (by decide) rfl (by decide)).trans rfl,
    (ambiguous_center_reports_candidates.2 demoTwoTm none none twoTmAtoms rfl
      (by decide) (by decide) (by decide) rfl).trans rfl⟩

lemma parseLine_err_isParse {l : List String} {e : Err} (h : parseLine l = .error e) :
    e.isParse = true := by
  unfold parseLine at h
  repeat' split at h
  all_goals first
  | (cases h; rfl)
  | cases h

lemma parseAtomsAux_err (ls : List (List String)) (i : ℕ)
    (h : ∃ l ∈ ls, ∃ e, parseLine l = .error e) :
    ∃ e, parseAtomsAux i ls = .error e ∧ e.isParse = true := by
  induction ls generalizing i with
  | nil => obtain ⟨l, hl, _⟩ := h; cases hl
  | cons a as ih =>
    unfold parseAtomsAux
    cases hpl : parseLine a with
    | error e => exact ⟨e, rfl, parseLine_err_isParse hpl⟩
    | ok v =>
      obtain ⟨l, hl, e, he⟩ := h
      rcases List.mem_cons.mp hl with rfl | hl
      · rw [hpl] at he; cases he
      · obtain ⟨e', he', hp'⟩ := ih (i + 1) ⟨l, hl, e, he⟩
        refine ⟨e', ?_, hp'⟩
        obtain ⟨z, p⟩ := v
        dsimp only
        rw [he']

/-- C9 (amended): any input with a malformed line (wrong token count or a
non-numeric field) makes extraction fail with one of the parse errors and
return no record.  The error value itself carries the offending token or
token count but no line number (see the counterexample theorem). -/
theorem malformed_line_parse_error (input : List (List String)) (li ti : Option ℤ)
    (h : ∃ l ∈ input, ∃ e, parseLine l = .error e) :
    ∃ e, extract_features input li ti = .error e ∧ e.isParse = true := by
  obtain ⟨e, he, hp⟩ := parseAtomsAux_err input 0 h
  refine ⟨e, ?_, hp⟩
  unfold extract_features parseAtoms
  rw [he]

/-- Witness for amended C9: a three-token second line fails the unpacking. -/
theorem malformed_line_parse_error_witness :
    ∃ e, extract_features [["64","0","0","0"], ["8","0","0"]] none none = .error e ∧
      e.isParse = true :=
  malformed_line_parse_error [["64","0","0","0"], ["8","0","0"]] none none
    ⟨["8","0","0"], by decide, Err.unpackTooFew 3, rfl⟩

lemma sort2_fst_le_snd (u v : ℝ) : (sort2 u v).1 ≤ (sort2 u v).2 := by
  unfold sort2
  split
  · exact le_of_lt (by assumption)
  · exact le_of_not_lt (by assumption)

/-- C2: every successful extraction returns exactly one row whose eleven
fields carry exactly the documented names in the documented order, and each
of the three sorted pairs satisfies field1 <= field2, each pair sorted on its
own values. -/
theorem output_schema_sorted_pairs (input : List (List String)) (li ti : Option ℤ)
    (df : List (List (String × ℝ)))
    (h : extract_features input li ti = .ok df) :
    ∃ s tz lntm a1 a2 ax t l1 l2 t1 t2 : ℝ,
      df = [[("Spin", s), ("TmZ", tz), ("Ln-Tm", lntm), ("(Ln-O-Tm)1", a1),
             ("(Ln-O-Tm)2", a2), ("(Ln-X-Tm)", ax), ("tio", t), ("Ln-O1", l1),
             ("Ln-O2", l2), ("Tm-O1", t1), ("Tm-O2", t2)]] ∧
      a1 ≤ a2 ∧ l1 ≤ l2 ∧ t1 ≤ t2 := by
  unfold extract_features at h
  dsimp only at h
  repeat' split at h
  all_goals cases h
  unfold mkRecord
  dsimp only
  refine ⟨_, _, _, _, _, _, _, _, _, _, _, rfl, ?_, ?_, ?_⟩
  · exact sort2_fst_le_snd _ _
  · exact sort2_fst_le_snd _ _
  · exact sort2_fst_le_snd _ _

/-- The resolved TM of `demoOk`, and the concrete bridging-oxygen and
torsion-carbon positions its extraction selects (the structure's two oxygens
tie in bridging key, so the earlier one, index 3, becomes O1; the two heavy
scans are tie-free). -/
def okTm : Atom := (Tm_atoms okAtoms).headD dummyAtom

def pO3 : Pt := (3/2, 3/10, 0)

def pO4 : Pt := (3/2, -3/10, 0)

def pC5 : Pt := (5/2, 3/5, 0)

def pC6 : Pt := (5/2, -3/5, 0)

lemma okOxygens : O_atoms okAtoms = [⟨3, 8, pO3⟩, ⟨4, 8, pO4⟩] := by
  rw [show O_atoms okAtoms =
      [⟨3, 8, ((1 : ℚ) + 5 / 10 ^ (1 : ℕ), (0 : ℚ) + 3 / 10 ^ (1 : ℕ), (0 : ℚ))⟩,
       ⟨4, 8, ((1 : ℚ) + 5 / 10 ^ (1 : ℕ), -((0 : ℚ) + 3 / 10 ^ (1 : ℕ)), (0 : ℚ))⟩] from rfl]
  norm_num [pO3, pO4]

lemma okBridgeKey : brKey okLn okTm (⟨3, 8, pO3⟩ : Atom) = brKey okLn okTm (⟨4, 8, pO4⟩ : Atom) := by
  rw [show okLn = (⟨1, 64, (0, 0, 0)⟩ : Atom) from rfl,
    show okTm = (⟨2, 26, (3, 0, 0)⟩ : Atom) from rfl]
  unfold brKey dist pO3 pO4
  norm_num

lemma okSorted : oxySorted okLn okTm (O_atoms okAtoms) =
    [(brKey okLn okTm ⟨3, 8, pO3⟩, ⟨3, 8, pO3⟩), (brKey okLn okTm ⟨4, 8, pO4⟩, ⟨4, 8, pO4⟩)] := by
  have hle : pairLe (brKey okLn okTm ⟨3, 8, pO3⟩, (⟨3, 8, pO3⟩ : Atom))
      (brKey okLn okTm ⟨4, 8, pO4⟩, (⟨4, 8, pO4⟩ : Atom)) :=
    Or.inr ⟨okBridgeKey, by decide⟩
  rw [okOxygens]
  show List.orderedInsert pairLe (brKey okLn okTm ⟨3, 8, pO3⟩, ⟨3, 8, pO3⟩)
      [(brKey okLn okTm ⟨4, 8, pO4⟩, ⟨4, 8, pO4⟩)] = _
  simp only [List.orderedInsert]
  rw [if_pos hle]

lemma okBridgePos0 : bridgePos okLn okTm okAtoms 0 = pO3 := by
  unfold bridgePos
  rw [okSorted]
  rfl

lemma okBridgePos1 : bridgePos okLn okTm okAtoms 1 = pO4 := by
  unfold bridgePos
  rw [okSorted]
  rfl

lemma okHeavyLt0 : dist pO3 pC5 < dist pO3 pC6 := by
  unfold dist pO3 pC5 pC6
  apply Real.sqrt_lt_sqrt
  · positivity
  · push_cast
    norm_num

lemma okHeavyLt1 : dist pO4 pC6 < dist pO4 pC5 := by
  unfold dist pO4 pC5 pC6
  apply Real.sqrt_lt_sqrt
  · positivity
  · push_cast
    norm_num

lemma okNearest0 : nearestHeavy okAtoms pO3 = .ok pC5 := by
  have e5 : ((2 : ℚ) + 5 / 10 ^ (1 : ℕ), (0 : ℚ) + 6 / 10 ^ (1 : ℕ), (0 : ℚ)) = pC5 := by
    unfold pC5; norm_num
  have e6 : ((2 : ℚ) + 5 / 10 ^ (1 : ℕ), -((0 : ℚ) + 6 / 10 ^ (1 : ℕ)), (0 : ℚ)) = pC6 := by
    unfold pC6; norm_num
  unfold nearestHeavy
  rw [show heavyCands okAtoms pO3 =
      [(dist pO3 ((2 : ℚ) + 5 / 10 ^ (1 : ℕ), (0 : ℚ) + 6 / 10 ^ (1 : ℕ), (0 : ℚ)),
        ((2 : ℚ) + 5 / 10 ^ (1 : ℕ), (0 : ℚ) + 6 / 10 ^ (1 : ℕ), (0 : ℚ))),
       (dist pO3 ((2 : ℚ) + 5 / 10 ^ (1 : ℕ), -((0 : ℚ) + 6 / 10 ^ (1 : ℕ)), (0 : ℚ)),
        ((2 : ℚ) + 5 / 10 ^ (1 : ℕ), -((0 : ℚ) + 6 / 10 ^ (1 : ℕ)), (0 : ℚ)))] from rfl,
    e5, e6]
  dsimp only
  rw [show pyMin [(dist pO3 pC6, pC6)] (dist pO3 pC5, pC5) = .ok (dist pO3 pC5, pC5) from by
    unfold pyMin
    rw [if_neg (ne_of_gt okHeavyLt0), if_neg (not_lt.mpr okHeavyLt0.le)]
    rfl]

lemma okNearest1 : nearestHeavy okAtoms pO4 = .ok pC6 := by
  have e5 : ((2 : ℚ) + 5 / 10 ^ (1 : ℕ), (0 : ℚ) + 6 / 10 ^ (1 : ℕ), (0 : ℚ)) = pC5 := by
    unfold pC5; norm_num
  have e6 : ((2 : ℚ) + 5 / 10 ^ (1 : ℕ), -((0 : ℚ) + 6 / 10 ^ (1 : ℕ)), (0 : ℚ)) = pC6 := by
    unfold pC6; norm_num
  unfold nearestHeavy
  rw [show heavyCands okAtoms pO4 =
      [(dist pO4 ((2 : ℚ) + 5 / 10 ^ (1 : ℕ), (0 : ℚ) + 6 / 10 ^ (1 : ℕ), (0 : ℚ)),
        ((2 : ℚ) + 5 / 10 ^ (1 : ℕ), (0 : ℚ) + 6 / 10 ^ (1 : ℕ), (0 : ℚ))),
       (dist pO4 ((2 : ℚ) + 5 / 10 ^ (1 : ℕ), -((0 : ℚ) + 6 / 10 ^ (1 : ℕ)), (0 : ℚ)),
        ((2 : ℚ) + 5 / 10 ^ (1 : ℕ), -((0 : ℚ) + 6 / 10 ^ (1 : ℕ)), (0 : ℚ)))] from rfl,
    e5, e6]
  dsimp only
  rw [show pyMin [(dist pO4 pC6, pC6)] (dist pO4 pC5, pC5) = .ok (dist pO4 pC6, pC6) from by
    unfold pyMin
    rw [if_neg (ne_of_lt okHeavyLt1), if_pos okHeavyLt1]
    rfl]

lemma okExtract : extract_features demoOk none none =
    .ok [mkRecord 2 okTm.Z okLn.pos okTm.pos pO3 pO4 pC5 pC6] := by
  have h1 := okNearest0
  have h2 := okNearest1
  unfold extract_features
  rw [show parseAtoms demoOk = Except.ok okAtoms from rfl]
  dsimp only
  rw [show resolveCenters okAtoms none none = Except.ok (okLn, okTm) from rfl]
  dsimp only
  rw [if_neg (show ¬(okTm.Z = 30) by decide),
    if_neg (show ¬((O_atoms okAtoms).length < 2) by decide)]
  have hb0 := okBridgePos0
  have hb1 := okBridgePos1
  unfold bridgePos at hb0 hb1
  rw [hb0, hb1, h1]
  dsimp only
  rw [h2]
  dsimp only
  rw [show spin_map.lookup okTm.Z = some 2 from rfl]

/-- Witness for C2 on the spec's end-to-end example structure. -/
theorem output_schema_sorted_pairs_witness :
    ∃ df, extract_features demoOk none none = .ok df ∧
      ∃ s tz lntm a1 a2 ax t l1 l2 t1 t2 : ℝ,
        df = [[("Spin", s), ("TmZ", tz), ("Ln-Tm", lntm), ("(Ln-O-Tm)1", a1),
               ("(Ln-O-Tm)2", a2), ("(Ln-X-Tm)", ax), ("tio", t), ("Ln-O1", l1),
               ("Ln-O2", l2), ("Tm-O1", t1), ("Tm-O2", t2)]] ∧
        a1 ≤ a2 ∧ l1 ≤ l2 ∧ t1 ≤ t2 :=
  ⟨[mkRecord 2 okTm.Z okLn.pos okTm.pos pO3 pO4 pC5 pC6], okExtract,
    output_schema_sorted_pairs demoOk none none _ okExtract⟩

lemma pairLe_key_le {p q : ℝ × Atom} (h : pairLe p q) : p.1 ≤ q.1 := by
  rcases h with h | ⟨h, _⟩
  · exact le_of_lt h
  · exact le_of_eq h

lemma mem_oxySorted {Ln tm : Atom} {Os : List Atom} {p : ℝ × Atom}
    (h : p ∈ oxySorted Ln tm Os) : ∃ o ∈ Os, p = (brKey Ln tm o, o) := by
  have hm : p ∈ bridgeKeyed Ln tm Os :=
    (List.perm_insertionSort pairLe (bridgeKeyed Ln tm Os)).mem_iff.mp h
  obtain ⟨o, ho, hfo⟩ := List.mem_map.mp hm
  exact ⟨o, ho, hfo.symm⟩

lemma key_mem_oxySorted {Ln tm : Atom} {Os : List Atom} {o : Atom} (ho : o ∈ Os) :
    (brKey Ln tm o, o) ∈ oxySorted Ln tm Os :=
  (List.perm_insertionSort pairLe (bridgeKeyed Ln tm Os)).mem_iff.mpr
    (List.mem_map_of_mem _ ho)

lemma oxySorted_index_nodup {Ln tm : Atom} {Os : List Atom}
    (hidx : Os.Pairwise (fun a b => a.index < b.index)) :
    ((oxySorted Ln tm Os).map (fun p => p.2.index)).Nodup := by
  have hperm : List.Perm ((oxySorted Ln tm Os).map (fun p => p.2.index))
      ((bridgeKeyed Ln tm Os).map (fun p => p.2.index)) :=
    (List.perm_insertionSort pairLe _).map _
  rw [hperm.nodup_iff]
  have hbk : (bridgeKeyed Ln tm Os).map (fun p => p.2.index)
      = Os.map (fun a => a.index) := by
    simp [bridgeKeyed]
  rw [hbk]
  have hp : (Os.map (fun a => a.index)).Pairwise (· < ·) :=
    List.pairwise_map.mpr hidx
  exact hp.imp Nat.ne_of_lt

/-- C1: for a structure with strictly increasing atom indices (input order)
and at least two oxygens, the sorted keyed oxygen list used by the bridge
locator starts with two entries `p1`, `p2` (exactly the pair kept by `[:2]`)
that are distinct oxygens of the structure carrying their own keys, with
`p1`'s sum at most `p2`'s, both sums at most the sum of every unselected
oxygen, and all key ties resolved toward the smaller (earlier) input index. -/
theorem bridging_oxygen_selection (Ln tm : Atom) (Os : List Atom)
    (hlen : 2 ≤ Os.length)
    (hidx : Os.Pairwise (fun a b => a.index < b.index)) :
    ∃ p1 p2 rest, oxySorted Ln tm Os = p1 :: p2 :: rest ∧
      (oxySorted Ln tm Os).take 2 = [p1, p2] ∧
      (∃ o1 ∈ Os, p1 = (brKey Ln tm o1, o1)) ∧
      (∃ o2 ∈ Os, p2 = (brKey Ln tm o2, o2)) ∧
      p1.2.index ≠ p2.2.index ∧
      p1.1 ≤ p2.1 ∧
      (∀ o ∈ Os, o.index ≠ p1.2.index → o.index ≠ p2.2.index →
        p1.1 ≤ brKey Ln tm o ∧ p2.1 ≤ brKey Ln tm o) ∧
      (∀ o ∈ Os, o.index ≠ p1.2.index → brKey Ln tm o = p1.1 → p1.2.index < o.index) ∧
      (∀ o ∈ Os, o.index ≠ p1.2.index → o.index ≠ p2.2.index → brKey Ln tm o = p2.1 →
        p2.2.index < o.index) ∧
      (p1.1 = p2.1 → p1.2.index < p2.2.index) := by
  have hlen2 : 2 ≤ (oxySorted Ln tm Os).length := by
    unfold oxySorted
    rw [List.length_insertionSort]
    simpa [bridgeKeyed] using hlen
  obtain ⟨p1, p2, rest, hS⟩ :
      ∃ p1 p2 rest, oxySorted Ln tm Os = p1 :: p2 :: rest := by
    cases hA : oxySorted Ln tm Os with
    | nil => rw [hA] at hlen2; simp at hlen2
    | cons a t =>
      cases hB : t with
      | nil => rw [hB] at hA; rw [hA] at hlen2; simp at hlen2
      | cons b r => exact ⟨a, b, r, by rw [← hB]⟩
  have hsort : List.Sorted pairLe (oxySorted Ln tm Os) :=
    List.sorted_insertionSort pairLe (bridgeKeyed Ln tm Os)
  rw [hS] at hsort
  obtain ⟨hp1, hrest⟩ := List.sorted_cons.mp hsort
  obtain ⟨hp2, _⟩ := List.sorted_cons.mp hrest
  have hr12 : pairLe p1 p2 := hp1 p2 (List.mem_cons_self p2 rest)
  have hnd := @oxySorted_index_nodup Ln tm Os hidx
  rw [hS] at hnd
  simp only [List.map_cons, List.nodup_cons, List.mem_cons] at hnd
  have hne : p1.2.index ≠ p2.2.index := fun he => hnd.1 (Or.inl he)
  have hm1 : ∃ o1 ∈ Os, p1 = (brKey Ln tm o1, o1) :=
    mem_oxySorted (hS ▸ List.mem_cons_self p1 (p2 :: rest))
  have hm2 : ∃ o2 ∈ Os, p2 = (brKey Ln tm o2, o2) :=
    mem_oxySorted (hS ▸ List.mem_cons_of_mem p1 (List.mem_cons_self p2 rest))
  have hcases : ∀ o ∈ Os, (brKey Ln tm o, o) = p1 ∨ (brKey Ln tm o, o) = p2 ∨
      (brKey Ln tm o, o) ∈ rest := by
    intro o ho
    have hmem := @key_mem_oxySorted Ln tm Os o ho
    rw [hS] at hmem
    simpa [List.mem_cons] using hmem
  have hq1 : ∀ o ∈ Os, o.index ≠ p1.2.index → pairLe p1 (brKey Ln tm o, o) := by
    intro o ho hne1
    rcases hcases o ho with hqq | hqq | hqq
    · exact absurd (congrArg (fun p => p.2.index) hqq) (fun he => hne1 he)
    · exact hqq ▸ hr12
    · exact hp1 _ (List.mem_cons_of_mem p2 hqq)
  have hq2 : ∀ o ∈ Os, o.index ≠ p1.2.index → o.index ≠ p2.2.index →
      pairLe p2 (brKey Ln tm o, o) := by
    intro o ho hne1 hne2
    rcases hcases o ho with hqq | hqq | hqq
    · exact absurd (congrArg (fun p => p.2.index) hqq) (fun he => hne1 he)
    · exact absurd (congrArg (fun p => p.2.index) hqq) (fun he => hne2 he)
    · exact hp2 _ hqq
  refine ⟨p1, p2, rest, hS, by rw [hS]; rfl, hm1, hm2, hne, pairLe_key_le hr12,
    ?_, ?_, ?_, ?_⟩
  · intro o ho h1 h2
    exact ⟨pairLe_key_le (hq1 o ho h1), pairLe_key_le (hq2 o ho h1 h2)⟩
  · intro o ho h1 hk
    rcases hq1 o ho h1 with hlt | ⟨heq, hle⟩
    · exact absurd (hk ▸ hlt) (lt_irrefl _)
    · exact lt_of_le_of_ne hle (fun he => h1 he.symm)
  · intro o ho h1 h2 hk
    rcases hq2 o ho h1 h2 with hlt | ⟨heq, hle⟩
    · exact absurd (hk ▸ hlt) (lt_irrefl _)
    · exact lt_of_le_of_ne hle (fun he => h2 he.symm)
  · intro hk
    rcases hr12 with hlt | ⟨heq, hle⟩
    · exact absurd (hk ▸ hlt) (lt_irrefl _)
    · exact lt_of_le_of_ne hle hne

/-- The centers and oxygen list of the spec's end-to-end example. -/
def wLn : Atom := ⟨1, 64, (0, 0, 0)⟩

def wTm : Atom := ⟨2, 26, (3, 0, 0)⟩

def wOs : List Atom := [⟨3, 8, (3/2, 3/10, 0)⟩, ⟨4, 8, (3/2, -3/10, 0)⟩]

/-- Witness for C1 on the example bridge. -/
theorem bridging_oxygen_selection_witness :
    ∃ p1 p2 rest, oxySorted wLn wTm wOs = p1 :: p2 :: rest ∧ p1.1 ≤ p2.1 := by
  obtain ⟨p1, p2, rest, hS, _, _, _, _, hle, _, _, _, _⟩ :=
    bridging_oxygen_selection wLn wTm wOs (by decide) (by decide)
  exact ⟨p1, p2, rest, hS, hle⟩

end LnTM
